import Mathlib

/-!
Verification development for the FWA executive-dashboard generator
(`src/analysis/generate_dashboard.py`).

The script is a linear pandas pipeline: CSV loading, currency/date
normalization, scalar aggregation, per-date summarisation, chart and
timeline construction, HTML assembly, and publishing.  This file gives a
shallow embedding of the data transformations that the verified
properties are about, and proves (or refutes) those properties.

Modelling conventions:
* A pandas cell is `Cell`: a text value, a numeric value (floats are
  modelled as exact rationals `Rat`; every numeric literal the pipeline
  produces comes from a decimal string, so this is faithful), a missing
  value (`NaN`/`NaT` collapse to `Cell.nan`), or a parsed timestamp
  (`Cell.date`, midnight-aligned, carried as days since 1970-01-01 —
  the delivery-date CSV values carry no time-of-day component).
* A dataframe is a `Table`: an association list of column name to cell
  list.  `df.get(col)` is `getColumn`; a missing column gives `none`.
* `pd.to_numeric(..., errors="coerce")` on a string is `parseNumeric`,
  covering the decimal formats (sign, digits, fraction, exponent) that
  occur; exotic spellings such as "inf" are not modelled.
* `pd.to_datetime(..., errors="coerce")` on a string is `parseDateStr`,
  covering ISO `YYYY-MM-DD` dates; pandas' more lenient formats are not
  modelled and parse failures coerce to missing exactly as in pandas.
-/

section Dashboard

attribute [local semireducible] Rat.add Rat.mul Rat.inv Rat.sub Rat.ofScientific

deriving instance DecidableEq for Except

/-- Numeric value of a list of decimal digit characters. -/
def digitsVal (l : List Char) : Nat :=
  l.foldl (fun a c => a * 10 + (c.toNat - 48)) 0

/-- `10 ^ n` over `Rat`, written out so that it evaluates by kernel reduction. -/
def pow10 : Nat → Rat
  | 0 => 1
  | n + 1 => 10 * pow10 n

/-- `pd.to_numeric(s, errors="coerce")` on a single string: optional sign,
digits, optional fractional part, optional exponent.  Returns `none` (missing)
when the string is not numeric, as `errors="coerce"` does. -/
def parseNumeric (s : String) : Option Rat :=
  let cs := s.toList
  let sgn : Rat := match cs with
    | '-' :: _ => -1
    | _ => 1
  let cs := match cs with
    | '-' :: r => r
    | '+' :: r => r
    | r => r
  let ip := cs.takeWhile Char.isDigit
  let cs := cs.dropWhile Char.isDigit
  let fp := match cs with
    | '.' :: r => r.takeWhile Char.isDigit
    | _ => []
  let cs := match cs with
    | '.' :: r => r.dropWhile Char.isDigit
    | r => r
  if ip.isEmpty && fp.isEmpty then none
  else
    let mant : Rat := (digitsVal ip : Rat) + (digitsVal fp : Rat) / pow10 fp.length
    match cs with
    | [] => some (sgn * mant)
    | e :: r =>
      if e == 'e' || e == 'E' then
        let eneg : Bool := match r with
          | '-' :: _ => true
          | _ => false
        let r := match r with
          | '-' :: r2 => r2
          | '+' :: r2 => r2
          | r2 => r2
        let ed := r.takeWhile Char.isDigit
        let rest := r.dropWhile Char.isDigit
        if ed.isEmpty || !rest.isEmpty then none
        else
          let ev : Rat := if eneg then (pow10 (digitsVal ed))⁻¹ else pow10 (digitsVal ed)
          some (sgn * mant * ev)
      else none

/-- Python `str.strip()`: drop leading and trailing whitespace. -/
def pyStrip (s : String) : String :=
  String.mk (((s.toList.dropWhile Char.isWhitespace).reverse.dropWhile Char.isWhitespace).reverse)

/-- `.str.replace dollar then comma with the empty string`: every occurrence of the two
characters is removed, i.e. the character list is filtered. -/
def stripDollarsCommas (s : String) : String :=
  String.mk (s.toList.filter (fun c => !(c == '$' || c == ',')))

/-- A pandas cell (see the module docstring for the conventions). -/
inductive Cell where
  | str (s : String)
  | num (q : Rat)
  | nan
  | date (d : Int)
deriving DecidableEq

/-- One test of the currency-cleaning condition
`df[col].astype(str).str.contains on the dollar sign` for a single cell.  `str()` of a
float, of `NaN` ("nan"), or of a `Timestamp` never contains a dollar sign, so
only text cells can witness the condition. -/
def cellHasDollar : Cell → Bool
  | .str s => s.toList.any (· == '$')
  | _ => false

/-- The per-cell effect of the currency-cleaning loop (lines 53-57):
`astype(str)`, strip the dollar signs and commas, `.str.strip()`, then `pd.to_numeric` with coercion.
* a text cell is stripped and coerced; coercion failure gives missing;
* a numeric cell round-trips: `str(x)` of a float re-parses to the same value;
* a missing cell maps to `"nan"`, which coerces back to missing;
* a timestamp cell maps to e.g. `"2025-11-05 00:00:00"`, which `to_numeric`
  cannot parse, hence missing. -/
def cleanCell : Cell → Cell
  | .str s =>
    match parseNumeric (pyStrip (stripDollarsCommas s)) with
    | some q => .num q
    | none => .nan
  | .num q => .num q
  | .nan => .nan
  | .date _ => .nan

/-- The currency-cleaning loop body for one column (lines 51-57): if any cell's
string form contains a dollar sign, every cell of the column is stripped and coerced;
otherwise the column is left untouched. -/
def cleanColumn (col : List Cell) : List Cell :=
  if col.any cellHasDollar then col.map cleanCell else col

/-- Leap year test (proleptic Gregorian). -/
def isLeap (y : Nat) : Bool :=
  (y % 4 == 0 && y % 100 != 0) || y % 400 == 0

/-- Number of days in a month. -/
def daysInMonth (y m : Nat) : Nat :=
  if m == 2 then (if isLeap y then 29 else 28)
  else if m == 4 || m == 6 || m == 9 || m == 11 then 30
  else 31

/-- Days since 1970-01-01 of a Gregorian calendar date (civil-from-days
algorithm; Lean's `Int` division rounds toward negative infinity for positive
divisors, which is what the era computation needs). -/
def daysFromCivil (y m d : Int) : Int :=
  let y := y - (if m ≤ 2 then 1 else 0)
  let era := y / 400
  let yoe := y - era * 400
  let doy := (153 * (m + (if m > 2 then -3 else 9)) + 2) / 5 + d - 1
  let doe := yoe * 365 + yoe / 4 - yoe / 100 + doy
  era * 146097 + doe - 719468

/-- Gregorian calendar date `(year, month, day)` of a days-since-epoch count
(inverse of `daysFromCivil`). -/
def civilFromDays (z : Int) : Int × Int × Int :=
  let z := z + 719468
  let era := z / 146097
  let doe := z - era * 146097
  let yoe := (doe - doe / 1460 + doe / 36524 - doe / 146096) / 365
  let y := yoe + era * 400
  let doy := doe - (365 * yoe + yoe / 4 - yoe / 100)
  let mp := (5 * doy + 2) / 153
  let d := doy - (153 * mp + 2) / 5 + 1
  let m := mp + (if mp < 10 then 3 else -9)
  (y + (if m ≤ 2 then 1 else 0), m, d)

/-- Split a character list at every occurrence of a separator character
(the semantics of `String.splitOn` for a one-character separator). -/
def splitChar (c : Char) : List Char → List (List Char)
  | [] => [[]]
  | a :: as =>
    let r := splitChar c as
    if a == c then [] :: r
    else
      match r with
      | h :: t => (a :: h) :: t
      | [] => [[a]]

/-- `pd.to_datetime(s, errors="coerce")` on a string: the ISO `YYYY-MM-DD`
subset of pandas' lenient parser.  Unparseable strings coerce to missing. -/
def parseDateStr (s : String) : Option Int :=
  match splitChar '-' s.toList with
  | [ys, ms, ds] =>
    if !ys.isEmpty && !ms.isEmpty && !ds.isEmpty
        && ys.all Char.isDigit && ms.all Char.isDigit && ds.all Char.isDigit then
      let y := digitsVal ys
      let m := digitsVal ms
      let d := digitsVal ds
      if 1 ≤ m && m ≤ 12 && 1 ≤ d && d ≤ daysInMonth y m then
        some (daysFromCivil y m d)
      else none
    else none
  | _ => none

/-- The per-cell effect of `pd.to_datetime(col, errors="coerce")` (line 62):
an already-parsed timestamp is unchanged, missing stays missing, a string is
parsed (failures coerce to missing).  A numeric cell is interpreted by pandas
as an epoch offset in nanoseconds; sub-day precision is not modelled (the
branch is unreachable in the pipeline: the delivery-date column holds strings
or missing values at load time), so it is truncated to whole days. -/
def parseDate : Cell → Cell
  | .date d => .date d
  | .nan => .nan
  | .str s =>
    match parseDateStr (pyStrip s) with
    | some d => .date d
    | none => .nan
  | .num q => .date (q / 86400000000000).floor

/-- A loaded dataframe: association list of column name to cells. -/
abbrev Table := List (String × List Cell)

/-- `df.get(name)`: the column when present, else `none`. -/
def getColumn (t : Table) (name : String) : Option (List Cell) :=
  (t.find? (fun p => p.1 == name)).map (·.2)

/-- The currency-cleaning loop over a whole dataframe (lines 50-57). -/
def cleanCurrencyTable (t : Table) : Table :=
  t.map (fun p => (p.1, cleanColumn p.2))

/-- The date-normalization loop (lines 60-62): parse the
`Date of Client Delivery` column when present, leave all others alone. -/
def parseDateColumns (t : Table) : Table :=
  t.map (fun p =>
    if p.1 == "Date of Client Delivery" then (p.1, p.2.map parseDate) else p)

/-- The whole normalization pass, in source order: currency cleaning
(lines 50-57) followed by date parsing (lines 60-62). -/
def normalizePass (t : Table) : Table :=
  parseDateColumns (cleanCurrencyTable t)

/-- `pd.to_numeric(c, errors="coerce")` on one cell of a column:
numbers pass through, missing stays missing, strings are parsed (failures
coerce to missing), and a timestamp converts to its epoch offset in
nanoseconds (`datetime64[ns]` integer view). -/
def toNumericCell : Cell → Option Rat
  | .num q => some q
  | .nan => none
  | .str s => parseNumeric s
  | .date d => some ((d : Rat) * 86400000000000)

/-- `pd.to_numeric(col, errors="coerce").sum()`: the default `skipna=True`
sum, in which every missing or unparseable cell contributes zero; an empty
or all-missing column sums to `0.0`. -/
def seriesToNumericSum (cells : List Cell) : Rat :=
  (cells.map (fun c => (toNumericCell c).getD 0)).sum

/-- One aggregate metric of lines 80-88:
`pd.to_numeric(df.get(name), errors="coerce").sum()`.
When the column is absent, `df.get` returns `None`, `to_numeric` turns it
into the scalar `NaN`, and `NaN.sum()` is `NaN` — modelled as `none`.
When the column is present the result is the skip-missing sum. -/
def sumMetric (t : Table) (name : String) : Option Rat :=
  match getColumn t name with
  | none => none
  | some cells => some (seriesToNumericSum cells)

/-- `total_overpayment_presented` / `total_overpayment_all` (lines 80-82). -/
def total_overpayment (df : Table) : Option Rat :=
  sumMetric df "Total Overpayment"

/-- `providers_flagged_presented` / `providers_flagged_all` (lines 84-85). -/
def providers_flagged (df : Table) : Option Rat :=
  sumMetric df "Number of Provider Hits"

/-- `claims_flagged_presented` / `claims_flagged_all` (lines 87-88). -/
def claims_flagged (df : Table) : Option Rat :=
  sumMetric df "Number of Claim Hits"

/-!  ## Delivery cadence (lines 101-107)

`presented_dates` is
`presented_hits` projected to the Concept and Date of Client Delivery columns, then `.dropna().drop_duplicates().sort_values` by date
and the reported cadence is
the `.diff().dt.days.dropna().mean()` of its date column.

The `(Concept, Date)` projection is taken after normalization, so a row is
`Option String × Option Int` (missing concept, missing/unparseable date are
`none`).  `sort_values` sorts rows by the date key only, hence the projected
date column is exactly the sorted list of the deduplicated pairs' dates
(ties among equal dates carry different concepts but the same date, so the
date column does not depend on the tie-breaking of the non-stable sort). -/

/-- the two-column projection after `.dropna()`: keep rows where both
fields are present. -/
def deliveryPairs (rows : List (Option String × Option Int)) : List (String × Int) :=
  rows.filterMap fun r =>
    match r with
    | (some c, some d) => some (c, d)
    | _ => none

/-- The `Date of Client Delivery` column of `presented_dates`: dates of the
deduplicated `(Concept, Date)` pairs, sorted ascending. -/
def pairDates (rows : List (Option String × Option Int)) : List Int :=
  List.insertionSort (· ≤ ·) (((deliveryPairs rows).dedup).map (·.2))

/-- `avg_interval_days` (line 107): `.diff()` produces a leading missing entry
followed by the successive differences, `.dropna()` removes the missing
entries, `.mean()` of an empty list is `NaN` (`none`). -/
def avg_interval_days (rows : List (Option String × Option Int)) : Option Rat :=
  let ds := pairDates rows
  let diffs : List (Option Int) :=
    match ds with
    | [] => []
    | d0 :: rest => none :: rest.zipWith (fun cur prev => some (cur - prev)) (d0 :: rest)
  let diffs := diffs.filterMap id
  if diffs.isEmpty then none
  else some (((diffs.map (fun z => (z : Rat))).sum) / (diffs.length : Rat))

/-- Successive differences of a list (the value at each position minus its
predecessor). -/
def succDiffs (ds : List Int) : List Int :=
  ds.tail.zipWith (fun cur prev => cur - prev) ds

/-- Mean of the successive differences of a list, undefined when the list has
fewer than two entries. -/
def meanSuccDiffs (ds : List Int) : Option Rat :=
  if ds.length < 2 then none
  else some (((succDiffs ds).map (fun z => (z : Rat))).sum / ((succDiffs ds).length : Rat))

/-- Modelled from the spec's words (the claimed reading of the cadence):
"the dataset's average gap (in days) between consecutive **distinct delivery
dates** (mean of successive differences; undefined when fewer than two
distinct dates exist)". -/
def distinctDatesCadence (rows : List (Option String × Option Int)) : Option Rat :=
  meanSuccDiffs (List.insertionSort (· ≤ ·) (((deliveryPairs rows).map (·.2)).dedup))

/-!  ## Per-date summary (`_date_summary`, lines 153-186) -/

/-- Lexicographic strict comparison of character lists by code point — the
order Python's `sorted` uses on strings. -/
def lexLt : List Char → List Char → Bool
  | [], [] => false
  | [], _ :: _ => true
  | _ :: _, [] => false
  | a :: as, b :: bs =>
    if a.toNat < b.toNat then true
    else if b.toNat < a.toNat then false
    else lexLt as bs

/-- Python's string order (`s <= t`). -/
def strLe (s t : String) : Bool := !(lexLt t.toList s.toList)

/-- `strLe` as a relation, for sorting. -/
def strLeRel (s t : String) : Prop := strLe s t = true

instance : DecidableRel strLeRel := fun s t => by
  unfold strLeRel
  infer_instance

/-- `sorted(set(s))` on a list of strings: deduplicate, then sort by code
point. -/
def sortDedupStr (l : List String) : List String :=
  List.insertionSort strLeRel l.dedup

/-- comma-space join of a string list. -/
def commaJoin : List String → String
  | [] => ""
  | [s] => s
  | s :: rest => s ++ ", " ++ commaJoin rest

/-- Round a rational to the nearest integer, ties to even — the rounding of
Python's format x with spec ",.0f" (the floats at hand are exact decimals, so the
decimal tie-to-even rule applies directly). -/
def roundHalfEven (q : Rat) : Int :=
  let f := q.floor
  let r := q - (f : Rat)
  if r < 1 / 2 then f
  else if 1 / 2 < r then f + 1
  else if f % 2 = 0 then f else f + 1

/-- Insert a thousands separator after every third character of a reversed
digit list. -/
def groupThrees : List Char → List Char
  | a :: b :: c :: d :: rest => a :: b :: c :: ',' :: groupThrees (d :: rest)
  | l => l

/-- Decimal rendering of an integer with thousands separators (`f"{n:,}"`;
the negative-zero edge of Python float formatting — minus 0.4 rendering as "-0" — is not modelled; no claim exercises negative amounts). -/
def intWithCommas (n : Int) : String :=
  (if n < 0 then "-" else "")
    ++ String.mk ((groupThrees (toString n.natAbs).toList.reverse).reverse)

/-- `_fmt_cur` (line 180) / `fmt_cur` (line 275) applied to a present value:
`f"${x:,.0f}"`. -/
def fmt_cur (q : Rat) : String := "$" ++ intWithCommas (roundHalfEven q)

/-- A row of the three-column projection
the date, concept and overpayment columns feeding
`_date_summary`, after normalization: the date is an already-parsed timestamp
or missing (re-running `pd.to_datetime` on it is the identity), the concept a
string or missing, the overpayment a number or missing. -/
structure DRow where
  date : Option Int
  concept : Option String
  overpayment : Option Rat
deriving DecidableEq

/-- A row of the frame `_date_summary` returns (columns
`Date of Client Delivery`, `Total_Overpayment`, `ConceptNames`,
`ConceptLabels`).  The groupby sums always produce a number (an all-missing
group sums to `0.0`) and every date key carries concept names, so the
`Total_Overpayment` and `ConceptNames` fields are total. -/
structure SRow where
  date : Int
  total : Rat
  names : String
  label : String
deriving DecidableEq

/-- A kept row after `dropna` on the date column and
`fillna` of the concept column with the empty string: `(date, concept, overpayment)`. -/
abbrev CRow := Int × String × Option Rat

/-- Lines 155-157 of `_date_summary`: parse/keep dated rows, fill missing
concepts with the empty string. -/
def validCRows (rows : List DRow) : List CRow :=
  rows.filterMap fun r =>
    match r.date with
    | some d => some (d, r.concept.getD "", r.overpayment)
    | none => none

/-- The groupby key of the groupby on (date, concept). -/
def keyOf (x : CRow) : Int × String := (x.1, x.2.1)

/-- The summed value: a missing overpayment contributes nothing to a groupby
sum (`min_count=0`, so even an all-missing group sums to `0.0`). -/
def valOf (x : CRow) : Rat := x.2.2.getD 0

/-- Lexicographic order on groupby keys (`sort=True` orders the result by the
key tuples). -/
def keyLe (a b : Int × String) : Bool :=
  if a.1 = b.1 then strLe a.2 b.2 else decide (a.1 < b.1)

/-- The distinct groupby keys of
`d.groupby(date-and-concept columns, sort=True)`: one per distinct
`(date, concept)` pair, sorted lexicographically. -/
def dsKeys (d : List CRow) : List (Int × String) :=
  List.insertionSort (fun a b => keyLe a b = true) ((d.map keyOf).dedup)

/-- The summed overpayment of one groupby fiber. -/
def dsFiberSum (d : List CRow) (k : Int × String) : Rat :=
  ((d.filter fun x => decide (keyOf x = k)).map valOf).sum

/-- `per_concept` (lines 159-164): the grouped `(key, sum)` entries with the
empty-concept groups dropped. -/
def dsPerConcept (d : List CRow) : List ((Int × String) × Rat) :=
  ((dsKeys d).map fun k => (k, dsFiberSum d k)).filter fun e => decide (e.1.2 ≠ "")

/-- The distinct delivery dates of the per-concept table, sorted (the date
level of the second groupby; the final `sort_values` keeps this order). -/
def dsDates (d : List CRow) : List Int :=
  List.insertionSort (· ≤ ·) (((dsPerConcept d).map (fun e => e.1.1)).dedup)

/-- `ConceptNames` for one date (lines 166-171): comma-join of
`sorted(set( ... ))` of the concepts grouped under that date. -/
def dsNames (d : List CRow) (dd : Int) : String :=
  commaJoin (sortDedupStr
    (((dsPerConcept d).filter fun e => decide (e.1.1 = dd)).map (fun e => e.1.2)))

/-- `Total_Overpayment` for one date (lines 173-178): the sum of that date's
per-concept sums. -/
def dsTotal (d : List CRow) (dd : Int) : Rat :=
  (((dsPerConcept d).filter fun e => decide (e.1.1 = dd)).map (fun e => e.2)).sum

/-- `_date_summary` (lines 153-186):
* keep dated rows and fill missing concepts (lines 155-157);
* group by `(date, concept)`, summing overpayment — `groupby(sort=True)`
  yields one entry per distinct key, sorted — and drop the empty-concept
  groups (lines 159-164);
* per date, collect names and total (lines 166-178);
* the merged frame always has concept names for every date key (both frames
  come from the same `per_concept`), so the label is the names followed by
  the formatted total in parentheses (lines 179-184), and the result is
  sorted by date (line 185). -/
def date_summary (rows : List DRow) : List SRow :=
  let d := validCRows rows
  (dsDates d).map fun dd =>
    ⟨dd, dsTotal d dd, dsNames d dd,
      dsNames d dd ++ " (" ++ fmt_cur (dsTotal d dd) ++ ")"⟩

/-- Specification-side reading: the (multiset of) non-empty concept names
delivered on date `dd`, straight from the input rows. -/
def conceptsOnDate (rows : List DRow) (dd : Int) : List String :=
  (validCRows rows).filterMap fun x =>
    if x.1 = dd ∧ x.2.1 ≠ "" then some x.2.1 else none

/-- Specification-side reading: the summed overpayment of the non-empty-concept
rows delivered on date `dd`, straight from the input rows (missing values
contribute zero). -/
def totalOnDate (rows : List DRow) (dd : Int) : Rat :=
  (((validCRows rows).filter fun x => decide (x.1 = dd ∧ x.2.1 ≠ "")).map valOf).sum

/-- The scenario rows of spec section 8: concept B delivered 2025-11-15 with
overpayment totalling 2000, here split over duplicate rows to exercise
deduplication. -/
def scenarioRows : List DRow :=
  [⟨some (daysFromCivil 2025 11 15), some "B", some 800⟩,
   ⟨some (daysFromCivil 2025 11 15), some "B", some 1200⟩]

/-- The summary row the scenario should produce. -/
def scenarioRow : SRow :=
  ⟨daysFromCivil 2025 11 15, 2000, "B", "B ($2,000)"⟩

/-!  ## Line chart (`build_overpayment_line_chart`, lines 208-241) -/

/-- Minimum of a list of integers (`Series.min()`; the default value is never
used — the function is only applied to nonempty lists). -/
def listMin : List Int → Int
  | [] => 0
  | a :: rest => rest.foldl min a

/-- Maximum of a list of integers (`Series.max()`). -/
def listMax : List Int → Int
  | [] => 0
  | a :: rest => rest.foldl max a

/-- The observable content of the plotly figure the chart builder returns:
its title, whether a trace was added, the trace's text labels and per-point
text positions, and the explicitly set axis ranges (dates in days). -/
structure Figure where
  title : String
  hasTrace : Bool
  text : List String
  textpositions : List String
  xaxisRange : Option (Int × Int)
  yaxisRange : Option (Rat × Rat)
deriving DecidableEq

/-- `top_threshold = 10_800_000` (line 217), 90% of the fixed 12M ceiling. -/
def top_threshold : Rat := 10800000

/-- `build_overpayment_line_chart(df, title)` (lines 208-241).
* empty input: a figure carrying only the title (lines 210-212);
* otherwise one scatter trace whose text labels are the `ConceptLabels`
  column, each label anchored "bottom center" when
  `pd.notna(v) and v >= top_threshold` — the summary totals are never
  missing, so the `notna` guard is vacuous here — and "top center"
  otherwise (line 218); the x-range is the data's date range padded by 10
  days each side (lines 237-238) and the y-range is fixed to 0..12M
  (line 240). -/
def build_overpayment_line_chart (df : List SRow) (title : String) : Figure :=
  if df.isEmpty then
    { title := title, hasTrace := false, text := [], textpositions := [],
      xaxisRange := none, yaxisRange := none }
  else
    let xs := df.map (·.date)
    { title := title
      hasTrace := true
      text := df.map (·.label)
      textpositions := df.map fun r =>
        if top_threshold ≤ r.total then "bottom center" else "top center"
      xaxisRange := some (listMin xs - 10, listMax xs + 10)
      yaxisRange := some (0, 12000000) }

/-!  ## Timeline (`build_timeline_html`, lines 191-205)

The builder walks the rows of a frame, addressing cells by column name;
pandas raises `KeyError` on an unknown name, modelled as `Except.error`.
The date cells of the summaries it would receive are always valid
timestamps; `NaT` arithmetic inside the loop is not modelled and surfaces
as an error as well. -/

/-- `r[name]`: positional lookup of a named cell in a row. -/
def getCellNamed (cols : List String) (row : List Cell) (name : String) :
    Except String Cell :=
  match cols.indexOf? name with
  | some i => .ok (row.getD i Cell.nan)
  | none => .error ("KeyError: " ++ name)

/-- The timestamp of a date cell, when it is one. -/
def cellDate : Cell → Option Int
  | .date d => some d
  | _ => none

/-- `str()` of a cell as interpolated into an f-string (text passes through;
the numeric renderings are schematic — no claim depends on them). -/
def cellText : Cell → String
  | .str s => s
  | .num q => intWithCommas q.floor
  | .nan => "nan"
  | .date d => dayIso d
where
  /-- `Timestamp.date().isoformat()`: zero-padded `YYYY-MM-DD`. -/
  dayIso (z : Int) : String :=
    let c := civilFromDays z
    pad 4 c.1 ++ "-" ++ pad 2 c.2.1 ++ "-" ++ pad 2 c.2.2
  /-- Zero-pad a (nonnegative) integer to a minimum width. -/
  pad (w : Nat) (n : Int) : String :=
    let s := toString n.natAbs
    String.mk (List.replicate (w - s.length) '0') ++ s

/-- Decimal rendering of a rational percentage position (`f"{pos}%"` renders
the float's repr; this schematic rendering is never compared against — the
builder fails before any output is assembled whenever it is invoked on the
pipeline's summary frames). -/
def ratText (q : Rat) : String :=
  intWithCommas q.num ++ "/" ++ toString q.den

/-- `build_timeline_html(df, title, line_color, tick_color)` (lines 191-205).
Empty frames short-circuit to a placeholder block (lines 192-193); otherwise
the span is `(max - min).days or 1` (line 196), each row is placed at
`((d - min).days / span) * 100` percent and labelled
date_str, a break tag, then the cell of the column literally named "Label" (lines 198-203). -/
def build_timeline_html (cols : List String) (rows : List (List Cell))
    (title : String) (line_color : String) (tick_color : String) :
    Except String String :=
  if rows.isEmpty then
    .ok ("<div class=\x27timeline\x27><div class=\x27timeline-title\x27>" ++ title
      ++ "</div><div class=\x27small\x27>No data available.</div></div>")
  else do
    let didx ←
      match cols.indexOf? "Date of Client Delivery" with
      | some i => Except.ok i
      | none => Except.error "KeyError: Date of Client Delivery"
    let dates := rows.filterMap fun r => cellDate (r.getD didx Cell.nan)
    match dates with
    | [] => Except.error "NaTType has no attribute days"
    | _ :: _ =>
      let min_d := listMin dates
      let max_d := listMax dates
      let span : Int := if max_d - min_d = 0 then 1 else max_d - min_d
      let items ← rows.mapM fun r => do
        let dc ← getCellNamed cols r "Date of Client Delivery"
        let d ←
          match cellDate dc with
          | some d => Except.ok d
          | none => Except.error "NaTType has no attribute days"
        let pos : Rat := (((d - min_d : Int) : Rat) / (span : Rat)) * 100
        let date_str := cellText.dayIso d
        let lab ← getCellNamed cols r "Label"
        let labelText := date_str ++ "<br>" ++ cellText lab
        Except.ok ("<div class=\x27timeline-label\x27 style=\x27left:" ++ ratText pos
          ++ "%\x27>" ++ labelText
          ++ "</div><div class=\x27timeline-tick\x27 style=\x27left:" ++ ratText pos
          ++ "%; background:" ++ tick_color ++ "\x27></div>")
      Except.ok ("<div class=\x27timeline\x27><div class=\x27timeline-title\x27>" ++ title
        ++ "</div><div class=\x27timeline-line\x27 style=\x27background:" ++ line_color
        ++ "\x27>" ++ String.join items ++ "</div></div>")

/-- The columns of the frame `_date_summary` returns, in order. -/
def dateSummaryCols : List String :=
  ["Date of Client Delivery", "Total_Overpayment", "ConceptNames", "ConceptLabels"]

/-- An `SRow` as the cell list of one row of that frame. -/
def srowCells (r : SRow) : List Cell :=
  [.date r.date, .num r.total, .str r.names, .str r.label]

/-!  ## Publisher (lines 407-458)

Paths are component lists; joining the base path "." with x drops the bare "." and empty
components as `pathlib` normalisation does.  `Path.resolve()` absolutises
against one fixed working directory and needs no symlink handling here, so
comparing resolved paths is comparing `..`-normalised relative component
lists. -/

/-- Build a path from slash-separated fragments, with `pathlib`'s
constructor-time normalisation (empty and "." components vanish). -/
def mkPath (parts : List String) : List String :=
  (parts.flatMap (fun s => splitChar '/' s.toList |>.map String.mk)).filter
    (fun c => !(c == "" || c == "."))

/-- `Path.resolve()` modulo the fixed working directory: eliminate `..`
components. -/
def resolvePath (p : List String) : List String :=
  p.foldl (fun acc c => if c == ".." then acc.dropLast else acc ++ [c]) []

/-- Render a path the way `str(path)` does. -/
def pathText (p : List String) : String := commaJoinSep "/" p
where
  /-- `sep.join` over components. -/
  commaJoinSep (sep : String) : List String → String
    | [] => ""
    | [s] => s
    | s :: rest => s ++ sep ++ commaJoinSep sep rest

/-- The publisher block (lines 407-458), as the list of paths that receive the
HTML document plus the final `print` line.  The root copy (line 409) and the
`reports` copy (line 431) are unconditional; when the `OUTPUT_DIR`
environment value (stripped, line 15) is nonempty, a third copy goes to
`BASE / OUTPUT_DIR` unless it resolves to the same directory as `reports`
(lines 452-456).  Line 458 prints the comma-joined written paths. -/
def publisher (outputDirEnv : String) : List (List String) × String :=
  let OUTPUT_DIR := pyStrip outputDirEnv
  let root_output := mkPath ["executive-dashboard.html"]
  let reports_dir := mkPath ["reports"]
  let reports_output := reports_dir ++ ["executive-dashboard.html"]
  let written_paths := [root_output, reports_output]
  let written_paths :=
    if OUTPUT_DIR ≠ "" then
      let out_dir := mkPath [OUTPUT_DIR]
      let target_output := out_dir ++ ["executive-dashboard.html"]
      if resolvePath out_dir ≠ resolvePath reports_dir then
        written_paths ++ [target_output]
      else written_paths
    else written_paths
  (written_paths,
    "Wrote dashboard to: " ++ commaJoin (written_paths.map pathText))

/-!  ## Normalization lemmas -/

theorem cellHasDollar_cleanCell (c : Cell) : cellHasDollar (cleanCell c) = false := by
  cases c with
  | str s =>
    simp only [cleanCell]
    cases parseNumeric (pyStrip (stripDollarsCommas s)) <;> rfl
  | num q => rfl
  | nan => rfl
  | date d => rfl

theorem cellHasDollar_parseDate (c : Cell) : cellHasDollar (parseDate c) = false := by
  cases c with
  | str s =>
    simp only [parseDate]
    cases parseDateStr (pyStrip s) <;> rfl
  | num q => rfl
  | nan => rfl
  | date d => rfl

theorem any_dollar_map_cleanCell (col : List Cell) :
    (col.map cleanCell).any cellHasDollar = false := by
  rw [List.any_map]
  refine List.any_eq_false.mpr ?_
  intro x _
  simp [Function.comp, cellHasDollar_cleanCell]

theorem any_dollar_map_parseDate (col : List Cell) :
    (col.map parseDate).any cellHasDollar = false := by
  rw [List.any_map]
  refine List.any_eq_false.mpr ?_
  intro x _
  simp [Function.comp, cellHasDollar_parseDate]

theorem cleanColumn_of_clean (col : List Cell) (h : col.any cellHasDollar = false) :
    cleanColumn col = col := by
  simp [cleanColumn, h]

theorem cleanColumn_idem (col : List Cell) :
    cleanColumn (cleanColumn col) = cleanColumn col := by
  cases h : col.any cellHasDollar with
  | true =>
    have h1 : cleanColumn col = col.map cleanCell := by simp [cleanColumn, h]
    rw [h1, cleanColumn_of_clean _ (any_dollar_map_cleanCell col)]
  | false =>
    have h1 : cleanColumn col = col := cleanColumn_of_clean col h
    rw [h1, h1]

theorem parseDate_idem (c : Cell) : parseDate (parseDate c) = parseDate c := by
  cases c with
  | str s =>
    simp only [parseDate]
    cases parseDateStr (pyStrip s) <;> rfl
  | num q => rfl
  | nan => rfl
  | date d => rfl

theorem map_parseDate_idem (l : List Cell) :
    (l.map parseDate).map parseDate = l.map parseDate := by
  rw [List.map_map]
  exact List.map_congr_left fun c _ => parseDate_idem c

theorem filter_self_idem {α} (p : α → Bool) (l : List α) :
    (l.filter p).filter p = l.filter p := by
  simp [List.filter_filter]

theorem stripDollarsCommas_idem (s : String) :
    stripDollarsCommas (stripDollarsCommas s) = stripDollarsCommas s := by
  unfold stripDollarsCommas
  exact congrArg String.mk (filter_self_idem _ _)

/-- Claim C5: re-running the normalization pass (currency stripping/coercion
and date parsing) on data it has already cleaned is a no-op — applying it a
second time leaves every table unchanged. -/
theorem normalization_pass_idempotent (t : Table) :
    normalizePass (normalizePass t) = normalizePass t := by
  unfold normalizePass parseDateColumns cleanCurrencyTable
  simp only [List.map_map]
  refine List.map_congr_left ?_
  intro p _
  simp only [Function.comp_apply]
  cases h : (p.1 == "Date of Client Delivery") with
  | true =>
    simp only [h, if_true]
    simp only [h, cleanColumn_of_clean _ (any_dollar_map_parseDate _), if_true]
    rw [map_parseDate_idem]
  | false =>
    simp [h, cleanColumn_idem]

/-- Claim C1: in a column that triggers currency cleaning, a cell whose text
contains a dollar sign normalizes to the same value as its symbol-free
equivalent: the cleaned value at that position is the cleaned value of the
symbol- and separator-stripped string, and stripping before cleaning changes
nothing. -/
theorem currency_symbol_strip_equiv (col : List Cell) (i : Nat) (s : String)
    (hcell : col.get? i = some (Cell.str s))
    (hdollar : cellHasDollar (Cell.str s) = true) :
    (cleanColumn col).get? i = some (cleanCell (Cell.str (stripDollarsCommas s)))
    ∧ cleanCell (Cell.str s) = cleanCell (Cell.str (stripDollarsCommas s)) := by
  have hmem : Cell.str s ∈ col := List.get?_mem hcell
  have hany : col.any cellHasDollar = true := List.any_eq_true.mpr ⟨_, hmem, hdollar⟩
  have heq : cleanCell (Cell.str s) = cleanCell (Cell.str (stripDollarsCommas s)) := by
    simp only [cleanCell, stripDollarsCommas_idem]
  refine ⟨?_, heq⟩
  have hmap : cleanColumn col = col.map cleanCell := by simp [cleanColumn, hany]
  rw [hmap, List.get?_map, hcell, Option.map_some', heq]

/-- Witness for C1 at the concrete cell "$1,234" versus "1234". -/
theorem currency_symbol_strip_equiv_witness :
    ((cleanColumn [Cell.str "$1,234"]).get? 0
        = some (cleanCell (Cell.str (stripDollarsCommas "$1,234")))
      ∧ cleanCell (Cell.str "$1,234") = cleanCell (Cell.str (stripDollarsCommas "$1,234")))
    ∧ stripDollarsCommas "$1,234" = "1234"
    ∧ cleanCell (Cell.str "$1,234") = Cell.num 1234
    ∧ cleanCell (Cell.str "1234") = Cell.num 1234 :=
  ⟨currency_symbol_strip_equiv [Cell.str "$1,234"] 0 "$1,234" rfl (by decide),
    by decide, by decide, by decide⟩

/-- Claim C10: once any cell of a column contains a dollar sign, every cell of
the column is stripped and coerced, and any cell whose stripped text is not
numeric — including free text that merely mentions a dollar amount — becomes
missing. -/
theorem dollar_in_column_coerces_all (col : List Cell)
    (h : col.any cellHasDollar = true) :
    cleanColumn col = col.map cleanCell
    ∧ ∀ s, parseNumeric (pyStrip (stripDollarsCommas s)) = none →
        cleanCell (Cell.str s) = Cell.nan := by
  refine ⟨by simp [cleanColumn, h], ?_⟩
  intro s hs
  simp [cleanCell, hs]

/-- Witness for C10: one dollar amount inside a free-text column silently
erases the whole column's text. -/
theorem dollar_in_column_coerces_all_witness :
    cleanColumn [Cell.str "Refund of $100 issued", Cell.str "pending review"]
      = [Cell.str "Refund of $100 issued", Cell.str "pending review"].map cleanCell
    ∧ cleanColumn [Cell.str "Refund of $100 issued", Cell.str "pending review"]
      = [Cell.nan, Cell.nan] :=
  ⟨(dollar_in_column_coerces_all _ (by decide)).1, by decide⟩

/-!  ## Sum metrics (C2) -/

theorem seriesSum_eq_filterMap (cells : List Cell) :
    seriesToNumericSum cells = (cells.filterMap toNumericCell).sum := by
  unfold seriesToNumericSum
  induction cells with
  | nil => rfl
  | cons c t ih =>
    cases h : toNumericCell c with
    | none => simp [List.filterMap_cons, h, ih]
    | some q => simp [List.filterMap_cons, h, ih]

/-- Counterexample to C2 as stated: when the summed column is entirely absent
from the table, the metric is the missing value (pandas `NaN`, modelled
`none`), not zero. -/
theorem sum_metric_missing_column_not_zero :
    total_overpayment [("Concept", [Cell.str "A"])] = none
    ∧ total_overpayment [("Concept", [Cell.str "A"])] ≠ some 0 := by decide

/-- Claim C2 (amended): each sum metric over a present column is the sum of
the parseable numeric values, missing and unparseable cells contributing
zero (so an all-missing column sums to zero); an entirely absent column
yields the missing value rather than zero, and no error either way. -/
theorem sum_metric_semantics (t : Table) (name : String) :
    (∀ cells, getColumn t name = some cells →
        sumMetric t name = some ((cells.filterMap toNumericCell).sum))
    ∧ (getColumn t name = none → sumMetric t name = none) := by
  constructor
  · intro cells h
    simp [sumMetric, h, seriesSum_eq_filterMap]
  · intro h
    simp [sumMetric, h]

/-- Witness for C2 (amended) on a column with one number, one missing cell and
one unparseable cell, and on an absent column. -/
theorem sum_metric_semantics_witness :
    sumMetric [("Total Overpayment", [Cell.num 100, Cell.nan, Cell.str "junk"])]
        "Total Overpayment"
      = some (([Cell.num 100, Cell.nan, Cell.str "junk"].filterMap toNumericCell).sum)
    ∧ ([Cell.num 100, Cell.nan, Cell.str "junk"].filterMap toNumericCell).sum = 100
    ∧ sumMetric [("Total Overpayment", [Cell.num 100, Cell.nan, Cell.str "junk"])]
        "Number of Provider Hits" = none :=
  ⟨(sum_metric_semantics _ _).1 _ (by decide), by decide,
    (sum_metric_semantics _ _).2 (by decide)⟩

/-!  ## Delivery cadence (C3) -/

theorem zipWith_some_eq_map (f : Int → Int → Int) (l1 l2 : List Int) :
    List.zipWith (fun a b => some (f a b)) l1 l2 = (List.zipWith f l1 l2).map some := by
  induction l1 generalizing l2 with
  | nil => simp
  | cons a t ih => cases l2 <;> simp [ih]

/-- Counterexample to C3 as stated: two concepts delivered on the same date
contribute a zero-day gap, so the reported average (1 day here) differs from
the mean over consecutive distinct delivery dates (2 days here). -/
theorem cadence_counterexample :
    avg_interval_days [(some "A", some 10), (some "B", some 10), (some "C", some 12)]
      = some 1
    ∧ distinctDatesCadence [(some "A", some 10), (some "B", some 10), (some "C", some 12)]
      = some 2
    ∧ avg_interval_days [(some "A", some 10), (some "B", some 10), (some "C", some 12)]
      ≠ distinctDatesCadence [(some "A", some 10), (some "B", some 10), (some "C", some 12)] := by
  decide

/-- Claim C3 (amended): the reported cadence is the mean of the successive
day-differences between consecutive rows of the date-sorted, deduplicated
(concept, date) table — equal dates delivered under different concepts
contribute zero-day gaps — and it is the missing value exactly when that
table has fewer than two rows. -/
theorem cadence_is_mean_over_pair_rows (rows : List (Option String × Option Int)) :
    avg_interval_days rows = meanSuccDiffs (pairDates rows)
    ∧ (avg_interval_days rows = none ↔ (pairDates rows).length < 2) := by
  have main : avg_interval_days rows = meanSuccDiffs (pairDates rows) := by
    unfold avg_interval_days meanSuccDiffs succDiffs
    cases h : pairDates rows with
    | nil => simp
    | cons d0 rest =>
      simp only [List.tail_cons]
      rw [zipWith_some_eq_map]
      cases rest with
      | nil => simp
      | cons r1 t1 =>
        simp [List.filterMap_cons, List.filterMap_map, List.length_zipWith]
  refine ⟨main, ?_⟩
  rw [main]
  unfold meanSuccDiffs
  by_cases h : (pairDates rows).length < 2 <;> simp [h]

/-!  ## Empty inputs and the timeline (C7, C8) -/

/-- Claim C8: every empty chart input still yields a renderable placeholder:
the timeline builder returns the "No data available." block and the line
chart builder returns a figure carrying only its title, and neither fails. -/
theorem empty_inputs_render_placeholders (cols : List String) (title lc tc : String) :
    build_timeline_html cols [] title lc tc
      = .ok ("<div class=\x27timeline\x27><div class=\x27timeline-title\x27>" ++ title
          ++ "</div><div class=\x27small\x27>No data available.</div></div>")
    ∧ build_overpayment_line_chart [] title
      = ⟨title, false, [], [], none, none⟩ :=
  ⟨rfl, rfl⟩

/-- Claim C7 (code-bug evidence): invoking the timeline builder on a nonempty
per-date summary frame fails with a KeyError, because it reads a column named
"Label" while the summary labels live in "ConceptLabels"; the assembled
report never invokes it at all. -/
theorem timeline_label_keyerror :
    build_timeline_html dateSummaryCols
        ((date_summary [⟨some 20407, some "B", some 2000⟩]).map srowCells)
        "Presented Hits" "#94a3b8" "#0b5cab"
      = .error "KeyError: Label" := by decide

/-!  ## Line chart layout (C6) -/

theorem foldl_min_le_init (l : List Int) : ∀ a : Int, l.foldl min a ≤ a := by
  induction l with
  | nil => intro a; exact le_refl a
  | cons b t ih => intro a; exact le_trans (ih (min a b)) (min_le_left a b)

theorem foldl_min_le_mem (l : List Int) : ∀ a x, x ∈ l → l.foldl min a ≤ x := by
  induction l with
  | nil => intro a x hx; cases hx
  | cons b t ih =>
    intro a x hx
    rcases List.mem_cons.mp hx with rfl | hx
    · exact le_trans (foldl_min_le_init t (min a x)) (min_le_right a x)
    · exact ih (min a b) x hx

theorem foldl_min_mem (l : List Int) : ∀ a, l.foldl min a ∈ a :: l := by
  induction l with
  | nil => intro a; exact List.mem_singleton.mpr rfl
  | cons b t ih =>
    intro a
    show t.foldl min (min a b) ∈ a :: b :: t
    rcases List.mem_cons.mp (ih (min a b)) with h1 | h1
    · rcases min_choice a b with h2 | h2
      · rw [h1, h2]; exact List.mem_cons_self _ _
      · rw [h1, h2]; exact List.mem_cons_of_mem _ (List.mem_cons_self _ _)
    · exact List.mem_cons_of_mem _ (List.mem_cons_of_mem _ h1)

theorem foldl_max_init_le (l : List Int) : ∀ a : Int, a ≤ l.foldl max a := by
  induction l with
  | nil => intro a; exact le_refl a
  | cons b t ih => intro a; exact le_trans (le_max_left a b) (ih (max a b))

theorem foldl_max_mem_le (l : List Int) : ∀ a x, x ∈ l → x ≤ l.foldl max a := by
  induction l with
  | nil => intro a x hx; cases hx
  | cons b t ih =>
    intro a x hx
    rcases List.mem_cons.mp hx with rfl | hx
    · exact le_trans (le_max_right a x) (foldl_max_init_le t (max a x))
    · exact ih (max a b) x hx

theorem foldl_max_mem (l : List Int) : ∀ a, l.foldl max a ∈ a :: l := by
  induction l with
  | nil => intro a; exact List.mem_singleton.mpr rfl
  | cons b t ih =>
    intro a
    show t.foldl max (max a b) ∈ a :: b :: t
    rcases List.mem_cons.mp (ih (max a b)) with h1 | h1
    · rcases max_choice a b with h2 | h2
      · rw [h1, h2]; exact List.mem_cons_self _ _
      · rw [h1, h2]; exact List.mem_cons_of_mem _ (List.mem_cons_self _ _)
    · exact List.mem_cons_of_mem _ (List.mem_cons_of_mem _ h1)

theorem listMin_mem (l : List Int) (h : l ≠ []) : listMin l ∈ l := by
  cases l with
  | nil => exact absurd rfl h
  | cons a t => exact foldl_min_mem t a

theorem listMin_le (l : List Int) (x : Int) (hx : x ∈ l) : listMin l ≤ x := by
  cases l with
  | nil => cases hx
  | cons a t =>
    rcases List.mem_cons.mp hx with rfl | hx
    · exact foldl_min_le_init t x
    · exact foldl_min_le_mem t a x hx

theorem listMax_mem (l : List Int) (h : l ≠ []) : listMax l ∈ l := by
  cases l with
  | nil => exact absurd rfl h
  | cons a t => exact foldl_max_mem t a

theorem le_listMax (l : List Int) (x : Int) (hx : x ∈ l) : x ≤ listMax l := by
  cases l with
  | nil => cases hx
  | cons a t =>
    rcases List.mem_cons.mp hx with rfl | hx
    · exact foldl_max_init_le t x
    · exact foldl_max_mem_le t a x hx

/-- Counterexample to C6 as stated: a point at exactly 90% of the 12M ceiling
(10,800,000) does not exceed the threshold, yet its label is anchored below
the point. -/
theorem line_chart_boundary_counterexample :
    (build_overpayment_line_chart [⟨0, 10800000, "A", "A"⟩] "t").textpositions
      = ["bottom center"]
    ∧ ¬ ((10800000 : Rat) > top_threshold) := by decide

/-- Claim C6 (amended): every label is anchored above its point unless the
value meets or exceeds 90% of the fixed 12,000,000 ceiling (10,800,000), in
which case it is anchored below; the x-range is the data's date range padded
by 10 days each side, and the y-range is fixed to 0..12,000,000. -/
theorem line_chart_layout (df : List SRow) (title : String) (h : df ≠ []) :
    (∀ i r, df.get? i = some r →
        (build_overpayment_line_chart df title).textpositions.get? i
          = some (if top_threshold ≤ r.total then "bottom center" else "top center"))
    ∧ (∃ lo hi,
        (build_overpayment_line_chart df title).xaxisRange = some (lo - 10, hi + 10)
        ∧ lo ∈ df.map (·.date) ∧ hi ∈ df.map (·.date)
        ∧ ∀ d ∈ df.map (·.date), lo ≤ d ∧ d ≤ hi)
    ∧ (build_overpayment_line_chart df title).yaxisRange = some (0, 12000000) := by
  have hne : df.isEmpty = false := by
    cases df with
    | nil => exact absurd rfl h
    | cons a t => rfl
  have hmapne : df.map (fun r : SRow => r.date) ≠ [] := by
    intro hc
    exact h (List.map_eq_nil.mp hc)
  refine ⟨?_, ?_, ?_⟩
  · intro i r hir
    simp only [build_overpayment_line_chart, hne, Bool.false_eq_true, if_false]
    rw [List.get?_map, hir, Option.map_some']
  · refine ⟨listMin (df.map (·.date)), listMax (df.map (·.date)), ?_, ?_, ?_, ?_⟩
    · simp only [build_overpayment_line_chart, hne, Bool.false_eq_true, if_false]
    · exact listMin_mem _ hmapne
    · exact listMax_mem _ hmapne
    · intro d hd
      exact ⟨listMin_le _ d hd, le_listMax _ d hd⟩
  · simp only [build_overpayment_line_chart, hne, Bool.false_eq_true, if_false]

/-- Witness for C6 (amended) on a two-point chart whose second value is above
the threshold. -/
theorem line_chart_layout_witness :
    (build_overpayment_line_chart [⟨3, 5, "A", "x"⟩, ⟨9, 10900000, "B", "y"⟩] "t").textpositions.get? 1
      = some "bottom center"
    ∧ (build_overpayment_line_chart [⟨3, 5, "A", "x"⟩, ⟨9, 10900000, "B", "y"⟩] "t").yaxisRange
      = some (0, 12000000) := by
  have hth := line_chart_layout [⟨3, 5, "A", "x"⟩, ⟨9, 10900000, "B", "y"⟩] "t" (by decide)
  refine ⟨?_, hth.2.2⟩
  have h1 := hth.1 1 ⟨9, 10900000, "B", "y"⟩ rfl
  rw [if_pos (show top_threshold ≤ ((10900000 : Rat)) by decide)] at h1
  exact h1

/-!  ## Publisher (C9) -/

/-- Claim C9: the publisher always writes the document to the fixed root
location and to the reports location; a configured output directory receives
a third copy unless it resolves to the reports directory, in which case the
redundant write is skipped; and the printed line lists exactly the written
paths. -/
theorem publisher_contract (env : String) :
    ["executive-dashboard.html"] ∈ (publisher env).1
    ∧ ["reports", "executive-dashboard.html"] ∈ (publisher env).1
    ∧ (pyStrip env = "" →
        (publisher env).1
          = [["executive-dashboard.html"], ["reports", "executive-dashboard.html"]])
    ∧ (pyStrip env ≠ "" →
        (resolvePath (mkPath [pyStrip env]) = resolvePath (mkPath ["reports"]) →
          (publisher env).1
            = [["executive-dashboard.html"], ["reports", "executive-dashboard.html"]])
        ∧ (resolvePath (mkPath [pyStrip env]) ≠ resolvePath (mkPath ["reports"]) →
          (publisher env).1
            = [["executive-dashboard.html"], ["reports", "executive-dashboard.html"],
                mkPath [pyStrip env] ++ ["executive-dashboard.html"]]))
    ∧ (publisher env).2 = "Wrote dashboard to: " ++ commaJoin ((publisher env).1.map pathText) := by
  have e1 : mkPath ["executive-dashboard.html"] = ["executive-dashboard.html"] := by decide
  have e2 : mkPath ["reports"] = ["reports"] := by decide
  unfold publisher
  by_cases h : pyStrip env = ""
  · simp [h, e1, e2]
  · by_cases h2 : resolvePath (mkPath [pyStrip env]) = resolvePath (mkPath ["reports"])
    · simp [h, h2, e1, e2]
    · rw [e2] at h2
      simp [h, h2, e1, e2]

/-- Witness for C9 with the configured output directory " site " (strips to a
directory distinct from reports, so a third copy is written), checking the
printed line as well. -/
theorem publisher_contract_witness :
    (publisher " site ").1
      = [["executive-dashboard.html"], ["reports", "executive-dashboard.html"],
          mkPath [pyStrip " site "] ++ ["executive-dashboard.html"]]
    ∧ mkPath [pyStrip " site "] ++ ["executive-dashboard.html"]
      = ["site", "executive-dashboard.html"]
    ∧ (publisher " site ").2
      = "Wrote dashboard to: " ++ commaJoin ((publisher " site ").1.map pathText) := by
  refine ⟨((publisher_contract " site ").2.2.2.1 (by decide)).2 (by decide), by decide,
    (publisher_contract " site ").2.2.2.2⟩

/-!  ## The code-point string order is a linear order -/

theorem char_toNat_inj (a b : Char) (h : a.toNat = b.toNat) : a = b :=
  Char.eq_of_val_eq (UInt32.toNat.inj h)

theorem lexLt_asymm : ∀ a b : List Char, lexLt a b = true → lexLt b a = false
  | [], [] => by intro h; simp [lexLt] at h
  | [], _ :: _ => by intro _; simp [lexLt]
  | _ :: _, [] => by intro h; simp [lexLt] at h
  | a :: as, b :: bs => by
    intro h
    simp only [lexLt] at h ⊢
    by_cases h1 : a.toNat < b.toNat
    · have h2 : ¬ b.toNat < a.toNat := by omega
      simp [h1, h2]
    · by_cases h2 : b.toNat < a.toNat
      · rw [if_neg h1, if_pos h2] at h
        cases h
      · rw [if_neg h1, if_neg h2] at h
        simp [h1, h2, lexLt_asymm as bs h]

theorem lexLt_trans : ∀ a b c : List Char,
    lexLt a b = true → lexLt b c = true → lexLt a c = true
  | [], [], _ => by intro h _; simp [lexLt] at h
  | [], _ :: _, [] => by intro _ h; simp [lexLt] at h
  | [], _ :: _, _ :: _ => by intro _ _; simp [lexLt]
  | _ :: _, [], _ => by intro h _; simp [lexLt] at h
  | _ :: _, _ :: _, [] => by intro _ h; simp [lexLt] at h
  | a :: as, b :: bs, c :: cs => by
    intro h1 h2
    simp only [lexLt] at h1 h2 ⊢
    by_cases hab : a.toNat < b.toNat
    · by_cases hcb : c.toNat < b.toNat
      · by_cases hbc : b.toNat < c.toNat
        · omega
        · rw [if_neg hbc, if_pos hcb] at h2
          cases h2
      · have : a.toNat < c.toNat := by omega
        simp [this]
    · by_cases hba : b.toNat < a.toNat
      · rw [if_neg hab, if_pos hba] at h1
        cases h1
      · have hepq : a.toNat = b.toNat := by omega
        by_cases hbc : b.toNat < c.toNat
        · have : a.toNat < c.toNat := by omega
          simp [this]
        · by_cases hcb : c.toNat < b.toNat
          · rw [if_neg hbc, if_pos hcb] at h2
            cases h2
          · have hac : ¬ a.toNat < c.toNat := by omega
            have hca : ¬ c.toNat < a.toNat := by omega
            rw [if_neg hab, if_neg hba] at h1
            rw [if_neg hbc, if_neg hcb] at h2
            rw [if_neg hac, if_neg hca]
            exact lexLt_trans as bs cs h1 h2

theorem lexLt_connex : ∀ a b : List Char,
    lexLt a b = false → lexLt b a = false → a = b
  | [], [] => by intro _ _; rfl
  | [], _ :: _ => by intro h _; simp [lexLt] at h
  | _ :: _, [] => by intro _ h; simp [lexLt] at h
  | a :: as, b :: bs => by
    intro h1 h2
    simp only [lexLt] at h1 h2
    by_cases hab : a.toNat < b.toNat
    · rw [if_pos hab] at h1
      cases h1
    · by_cases hba : b.toNat < a.toNat
      · rw [if_pos hba] at h2
        cases h2
      · have hc : a = b := char_toNat_inj a b (by omega)
        rw [if_neg hab, if_neg hba] at h1
        rw [if_neg hba, if_neg hab] at h2
        rw [hc, lexLt_connex as bs h1 h2]

theorem strLeRel_total : ∀ s t : String, strLeRel s t ∨ strLeRel t s := by
  intro s t
  unfold strLeRel strLe
  by_cases h : lexLt t.toList s.toList = true
  · right
    have ha := lexLt_asymm _ _ h
    show (!lexLt s.toList t.toList) = true
    rw [ha]
    rfl
  · left
    have h3 : lexLt t.toList s.toList = false := by
      cases hx : lexLt t.toList s.toList
      · rfl
      · exact absurd hx h
    show (!lexLt t.toList s.toList) = true
    rw [h3]
    rfl

theorem strLeRel_trans : ∀ s t u : String, strLeRel s t → strLeRel t u → strLeRel s u := by
  intro s t u h1 h2
  unfold strLeRel strLe at h1 h2 ⊢
  have e1 : lexLt t.toList s.toList = false := by
    cases hx : lexLt t.toList s.toList
    · rfl
    · rw [hx] at h1
      cases h1
  have e2 : lexLt u.toList t.toList = false := by
    cases hx : lexLt u.toList t.toList
    · rfl
    · rw [hx] at h2
      cases h2
  have goal : lexLt u.toList s.toList = false := by
    cases hx : lexLt u.toList s.toList
    · rfl
    · exfalso
      by_cases htu : lexLt t.toList u.toList = true
      · have hts := lexLt_trans _ _ _ htu hx
        rw [hts] at e1
        cases e1
      · have h3 : lexLt t.toList u.toList = false := by
          cases hy : lexLt t.toList u.toList
          · rfl
          · exact absurd hy htu
        have heq : t.toList = u.toList := lexLt_connex _ _ h3 e2
        rw [heq, hx] at e1
        cases e1
  show (!lexLt u.toList s.toList) = true
  rw [goal]
  rfl

theorem strLeRel_antisymm : ∀ s t : String, strLeRel s t → strLeRel t s → s = t := by
  intro s t h1 h2
  unfold strLeRel strLe at h1 h2
  have e1 : lexLt t.toList s.toList = false := by
    cases hx : lexLt t.toList s.toList
    · rfl
    · rw [hx] at h1
      cases h1
  have e2 : lexLt s.toList t.toList = false := by
    cases hx : lexLt s.toList t.toList
    · rfl
    · rw [hx] at h2
      cases h2
  exact String.ext (lexLt_connex _ _ e2 e1)

/-!  ## Per-date summary refinement (C4) -/

theorem sortDedupStr_eq_of_mem_iff (l₁ l₂ : List String)
    (h : ∀ c, c ∈ l₁ ↔ c ∈ l₂) : sortDedupStr l₁ = sortDedupStr l₂ := by
  unfold sortDedupStr
  have h1 : l₁.dedup.Perm l₂.dedup :=
    (List.perm_ext_iff_of_nodup (List.nodup_dedup _) (List.nodup_dedup _)).mpr
      (fun a => by rw [List.mem_dedup, List.mem_dedup]; exact h a)
  have hperm : (List.insertionSort strLeRel l₁.dedup).Perm
      (List.insertionSort strLeRel l₂.dedup) :=
    ((List.perm_insertionSort _ _).trans h1).trans (List.perm_insertionSort _ _).symm
  exact @List.eq_of_perm_of_sorted _ strLeRel ⟨strLeRel_antisymm⟩ _ _ hperm
    (@List.sorted_insertionSort _ strLeRel _ ⟨strLeRel_total⟩ ⟨strLeRel_trans⟩ _)
    (@List.sorted_insertionSort _ strLeRel _ ⟨strLeRel_total⟩ ⟨strLeRel_trans⟩ _)

theorem mem_dsKeys (d : List CRow) (k : Int × String) :
    k ∈ dsKeys d ↔ ∃ x ∈ d, keyOf x = k := by
  unfold dsKeys
  rw [List.mem_insertionSort, List.mem_dedup, List.mem_map]

theorem dsKeys_nodup (d : List CRow) : (dsKeys d).Nodup :=
  (List.perm_insertionSort _ _).nodup_iff.mpr (List.nodup_dedup _)

theorem mem_dsPerConcept_iff (d : List CRow) (e : (Int × String) × Rat) :
    e ∈ dsPerConcept d ↔
      (∃ x ∈ d, keyOf x = e.1) ∧ e.2 = dsFiberSum d e.1 ∧ e.1.2 ≠ "" := by
  unfold dsPerConcept
  rw [List.mem_filter, List.mem_map]
  constructor
  · rintro ⟨⟨k, hk, rfl⟩, hne⟩
    exact ⟨(mem_dsKeys d k).mp hk, rfl, of_decide_eq_true hne⟩
  · rintro ⟨hex, hfib, hne⟩
    obtain ⟨e1, e2⟩ := e
    refine ⟨⟨e1, (mem_dsKeys d e1).mpr hex, ?_⟩, decide_eq_true hne⟩
    simp only at hfib
    rw [hfib]

theorem mem_summary_concepts_iff (d : List CRow) (dd : Int) (c : String) :
    (c ∈ ((dsPerConcept d).filter fun e => decide (e.1.1 = dd)).map (fun e => e.1.2))
      ↔ ((∃ x ∈ d, x.1 = dd ∧ x.2.1 = c) ∧ c ≠ "") := by
  rw [List.mem_map]
  constructor
  · rintro ⟨e, he, rfl⟩
    rw [List.mem_filter] at he
    obtain ⟨hpc, hdate⟩ := he
    rw [mem_dsPerConcept_iff] at hpc
    obtain ⟨⟨x, hx, hkey⟩, _, hne⟩ := hpc
    have hdate' : e.1.1 = dd := of_decide_eq_true hdate
    refine ⟨⟨x, hx, ?_, ?_⟩, hne⟩
    · exact (congrArg Prod.fst hkey).trans hdate'
    · exact congrArg Prod.snd hkey
  · rintro ⟨⟨x, hx, hxd, hxc⟩, hne⟩
    refine ⟨((dd, c), dsFiberSum d (dd, c)), ?_, rfl⟩
    rw [List.mem_filter]
    constructor
    · rw [mem_dsPerConcept_iff]
      refine ⟨⟨x, hx, ?_⟩, rfl, hne⟩
      show (x.1, x.2.1) = (dd, c)
      rw [hxd, hxc]
    · exact decide_eq_true rfl

theorem mem_conceptsOnDate_iff (rows : List DRow) (dd : Int) (c : String) :
    c ∈ conceptsOnDate rows dd
      ↔ ((∃ x ∈ validCRows rows, x.1 = dd ∧ x.2.1 = c) ∧ c ≠ "") := by
  unfold conceptsOnDate
  rw [List.mem_filterMap]
  constructor
  · rintro ⟨x, hx, hopt⟩
    by_cases hcond : x.1 = dd ∧ x.2.1 ≠ ""
    · rw [if_pos hcond] at hopt
      injection hopt with hc
      refine ⟨⟨x, hx, hcond.1, hc⟩, ?_⟩
      rw [← hc]
      exact hcond.2
    · rw [if_neg hcond] at hopt
      cases hopt
  · rintro ⟨⟨x, hx, hxd, hxc⟩, hne⟩
    refine ⟨x, hx, ?_⟩
    rw [if_pos ⟨hxd, by rw [hxc]; exact hne⟩, hxc]

theorem dsNames_eq_conceptsOnDate (rows : List DRow) (dd : Int) :
    dsNames (validCRows rows) dd = commaJoin (sortDedupStr (conceptsOnDate rows dd)) := by
  unfold dsNames
  congr 1
  apply sortDedupStr_eq_of_mem_iff
  intro c
  rw [mem_summary_concepts_iff, mem_conceptsOnDate_iff]

theorem sum_filter_or_disjoint (L : List CRow) (p q : CRow → Bool)
    (hdisj : ∀ a, ¬(p a = true ∧ q a = true)) :
    ((L.filter fun a => p a || q a).map valOf).sum
      = ((L.filter p).map valOf).sum + ((L.filter q).map valOf).sum := by
  induction L with
  | nil => simp
  | cons a t ih =>
    by_cases hp : p a = true
    · have hq : q a = false := by
        cases hq2 : q a
        · rfl
        · exact absurd ⟨hp, hq2⟩ (hdisj a)
      simp only [List.filter_cons, hp, hq, Bool.true_or, if_true, Bool.false_eq_true,
        if_false, List.map_cons, List.sum_cons, ih]
      ring
    · have hp' : p a = false := by
        cases hp2 : p a
        · rfl
        · exact absurd hp2 hp
      by_cases hq : q a = true
      · simp only [List.filter_cons, hp', hq, Bool.false_or, if_true, Bool.false_eq_true,
          if_false, List.map_cons, List.sum_cons, ih]
        ring
      · have hq' : q a = false := by
          cases hq2 : q a
          · rfl
          · exact absurd hq2 hq
        simp only [List.filter_cons, hp', hq', Bool.or_self, Bool.false_eq_true, if_false, ih]

theorem sum_fiberSums (L : List CRow) (K : List (Int × String)) (hK : K.Nodup) :
    (K.map (fun k => dsFiberSum L k)).sum
      = ((L.filter fun x => decide (keyOf x ∈ K)).map valOf).sum := by
  induction K with
  | nil => simp
  | cons k K' ih =>
    have hk : k ∉ K' := (List.nodup_cons.mp hK).1
    have hK' : K'.Nodup := (List.nodup_cons.mp hK).2
    rw [List.map_cons, List.sum_cons, ih hK']
    have hcong : (L.filter fun x => decide (keyOf x ∈ k :: K'))
        = L.filter fun x => (decide (keyOf x = k) || decide (keyOf x ∈ K')) := by
      apply List.filter_congr
      intro x _
      by_cases h1 : keyOf x = k <;> by_cases h2 : keyOf x ∈ K' <;>
        simp [List.mem_cons, h1, h2]
    rw [hcong, sum_filter_or_disjoint]
    · rfl
    · intro x ⟨h1, h2⟩
      exact hk (of_decide_eq_true h1 ▸ of_decide_eq_true h2)

theorem dsTotal_eq_totalOnDate (rows : List DRow) (dd : Int) :
    dsTotal (validCRows rows) dd = totalOnDate rows dd := by
  unfold dsTotal dsPerConcept totalOnDate
  rw [List.filter_filter, List.filter_map, List.map_map]
  have hfun : ((fun e : (Int × String) × Rat => e.2)
        ∘ fun k => (k, dsFiberSum (validCRows rows) k))
      = fun k => dsFiberSum (validCRows rows) k := rfl
  rw [hfun]
  rw [sum_fiberSums (validCRows rows) _
    (List.Nodup.filter _ (dsKeys_nodup (validCRows rows)))]
  apply congrArg
  apply congrArg
  apply List.filter_congr
  intro x hx
  have hkx : keyOf x ∈ dsKeys (validCRows rows) :=
    (mem_dsKeys _ _).mpr ⟨x, hx, rfl⟩
  apply decide_eq_decide.mpr
  rw [List.mem_filter]
  constructor
  · rintro ⟨_, hcond⟩
    simp only [Function.comp_apply] at hcond
    rw [Bool.and_eq_true] at hcond
    exact ⟨of_decide_eq_true hcond.1, of_decide_eq_true hcond.2⟩
  · rintro ⟨hdd, hne⟩
    refine ⟨hkx, ?_⟩
    simp only [Function.comp_apply]
    rw [Bool.and_eq_true]
    exact ⟨decide_eq_true hdd, decide_eq_true hne⟩

/-- Claim C4: every row of the per-date summary carries, for its date, the
alphabetically sorted, deduplicated, comma-joined list of the non-empty
concepts delivered that date (duplicates in the source collapse), the summed
overpayment of those rows, and a label of the names followed by the formatted
total in parentheses. -/
theorem date_summary_row_spec (rows : List DRow) (r : SRow)
    (hr : r ∈ date_summary rows) :
    r.names = commaJoin (sortDedupStr (conceptsOnDate rows r.date))
    ∧ r.total = totalOnDate rows r.date
    ∧ r.label = r.names ++ " (" ++ fmt_cur r.total ++ ")" := by
  unfold date_summary at hr
  rw [List.mem_map] at hr
  obtain ⟨dd, _, rfl⟩ := hr
  exact ⟨dsNames_eq_conceptsOnDate rows dd, dsTotal_eq_totalOnDate rows dd, rfl⟩

/-- Witness for C4: the date 2025-11-15 carrying only concept B with
overpayment 2000 (split over duplicate rows) is labelled "B ($2,000)". -/
theorem date_summary_row_spec_witness :
    (scenarioRow.names = commaJoin (sortDedupStr (conceptsOnDate scenarioRows scenarioRow.date))
      ∧ scenarioRow.total = totalOnDate scenarioRows scenarioRow.date
      ∧ scenarioRow.label = scenarioRow.names ++ " (" ++ fmt_cur scenarioRow.total ++ ")")
    ∧ date_summary scenarioRows = [scenarioRow]
    ∧ scenarioRow.label = "B ($2,000)" :=
  ⟨date_summary_row_spec scenarioRows scenarioRow (by decide), by decide, by decide⟩

end Dashboard
